import Mathlib

/-!
Verification of the dataset partitioning and iteration engine of
`pybnn/utils/data_utils.py` (the `Data` class and its helper generators).

Arrays of shape [N, i, D] are modelled as nested lists of integers.
`numpy.random.RandomState` is modelled as a deterministic counter-based
stream: the only properties of the generator that the verified claims rely
on are determinism (same seed, same draws) and that sampling without
replacement from `range(n)` returns distinct in-range indices — and raises
`ValueError` exactly when the requested sample is larger than the
population, which is numpy's documented behaviour.  Python exceptions are
modelled with `Except String`.
-/

/-- A 3-d array [N, i, D] as nested lists (rows = configurations,
middle axis = repeated evaluations, inner axis = feature dimension). -/
abbrev Arr3 := List (List (List Int))

/-- A 2-d array [N, D] as nested lists. -/
abbrev Arr2 := List (List Int)

/-- A triple (features, outputs, metadata) of 3-d arrays, the `Dataset`
type alias of the source. -/
abbrev Dataset3 := Arr3 × Arr3 × Arr3

/-- Deterministic model of a `numpy.random.RandomState` stream: a seed and
a position counter.  The concrete mixing function is irrelevant to every
claim; only determinism and value ranges are used. -/
structure RandomState where
  seed : Nat
  counter : Nat
deriving Repr, DecidableEq

/-- `numpy.random.RandomState(seed)`. -/
def mkRandomState (seed : Nat) : RandomState := ⟨seed, 0⟩

/-- Draw one raw pseudo-random natural and advance the stream. -/
def rngNext (r : RandomState) : Nat × RandomState :=
  (((r.seed + 777) * (r.counter + 99991) + 12345) % 1000003,
   { r with counter := r.counter + 1 })

/-- `rng.randint(lo, hi)`: one integer in [lo, hi). -/
def randint (lo hi : Nat) (r : RandomState) : Nat × RandomState :=
  let p := rngNext r
  (lo + p.1 % (hi - lo), p.2)

/-- One step of sampling without replacement: pick a remaining element of
the pool, remove it, recurse.  Models the state evolution of
`rng.choice(..., replace=False)`. -/
def drawK : Nat → List Nat → RandomState → List Nat × RandomState
  | 0, _, rng => ([], rng)
  | k + 1, pool, rng =>
    let p := rngNext rng
    let x := pool.getD (p.1 % pool.length) 0
    let rest := drawK k (pool.erase x) p.2
    (x :: rest.1, rest.2)

/-- `rng.choice(range(n), size=size, replace=False)`: `size` distinct
indices from [0, n).  numpy raises
`ValueError: Cannot take a larger sample than population when 'replace=False'`
exactly when `size > n` (a sample of size 0 or of size n succeeds). -/
def choiceNoReplace (n size : Nat) (rng : RandomState) :
    Except String (List Nat × RandomState) :=
  if n < size then
    .error "Cannot take a larger sample than population when 'replace=False'"
  else
    .ok (drawK size (List.range n) rng)

/-- `exclude_indices(npoints, indices)` from the source: all indices in
[0, npoints) except the given ones (boolean-mask complement). -/
def exclude_indices (npoints : Nat) (indices : List Nat) : List Nat :=
  (List.range npoints).filter (fun j => !(indices.contains j))

/-- The index-drawing core of one iteration of
`Data._iterate_dataset_configurations` (source lines 254-255):
`train_ind = rng.choice(range(N), size=train_size, replace=False)` and
`test_ind = exclude_indices(N, train_ind)`. -/
def confDrawIndices (N train_size : Nat) (rng : RandomState) :
    Except String ((List Nat × List Nat) × RandomState) :=
  match choiceNoReplace N train_size rng with
  | .error e => .error e
  | .ok (train_ind, rng2) => .ok ((train_ind, exclude_indices N train_ind), rng2)

/-- Fancy row indexing `a[idx, :, :]`: the selected rows in order. -/
def sliceRows (a : Arr3) (idx : List Nat) : Arr3 :=
  idx.map (fun j => a.getD j [])

/-- `a.shape[2]` of a rectangular [N, i, D] array. -/
def dim2 (a : Arr3) : Nat := ((a.getD 0 []).getD 0 []).length

/-- `a.shape[1]` of a rectangular [N, i, D] array. -/
def dim1 (a : Arr3) : Nat := (a.getD 0 []).length

/-- The captured state of one `_iterate_dataset_configurations` generator:
its keyword arguments and its own private `RandomState`.  Creating the
generator runs none of the body (Python generator semantics): there is no
validation here. -/
structure ConfGen where
  train_frac : Option ℚ
  train_size : Option Nat
  rng : RandomState
deriving Repr, DecidableEq

/-- `self._iterate_dataset_configurations(train_frac=…, train_size=…, rng=seed)`:
generator creation is total — the body (and hence the missing-parameter
check) does not run until the first `next`. -/
def iterate_dataset_configurations (train_frac : Option ℚ)
    (train_size : Option Nat) (rng_seed : Nat) : ConfGen :=
  { train_frac := train_frac, train_size := train_size, rng := mkRandomState rng_seed }

/-- One `next` on a `_iterate_dataset_configurations` generator: the
missing-parameter `RuntimeError` check, the `train_frac` floor, one
index draw and the row slicing of all three full arrays.
(`train_frac` supersedes `train_size` when both are given; the floor of a
negative fraction is clamped at 0 here, a case no caller reaches.) -/
def confNext (X_full y_full meta_full : Arr3) (g : ConfGen) :
    Except String ((Dataset3 × Dataset3) × ConfGen) :=
  if g.train_frac = none ∧ g.train_size = none then
    .error "Either 'train_frac' or 'train_size' must be provided."
  else
    let tsize : Nat :=
      match g.train_frac with
      | some f => (⌊f * (X_full.length : ℚ)⌋).toNat
      | none => g.train_size.getD 0
    match confDrawIndices X_full.length tsize g.rng with
    | .error e => .error e
    | .ok ((train_ind, test_ind), rng2) =>
      .ok (((sliceRows X_full train_ind, sliceRows y_full train_ind,
             sliceRows meta_full train_ind),
            (sliceRows X_full test_ind, sliceRows y_full test_ind,
             sliceRows meta_full test_ind)),
           { g with rng := rng2 })

/-- Per-row evaluation choices: `rng.choice(range(i), size=(N,1,1))`,
one index in [0, i) for each of the N rows, with replacement. -/
def drawChoices : Nat → Nat → RandomState → List Nat × RandomState
  | 0, _, rng => ([], rng)
  | m + 1, i, rng =>
    let p := rngNext rng
    let rest := drawChoices m i p.2
    (p.1 % i :: rest.1, rest.2)

/-- `np.take_along_axis(a, choices, axis=1).reshape((N, D))`: row m of the
result is evaluation `choices[m]` of row m of the input. -/
def takeAlong (a : Arr3) (choices : List Nat) : Arr2 :=
  List.zipWith (fun row c => row.getD c []) a choices

/-- The captured state of one `_generate_evaluation_subsets` generator:
the dataset slice it closes over.  The `rng` argument it received is
`self.rng`, a shared mutable object, so the stream is threaded through the
caller's state instead of being stored here. -/
structure EvalGen where
  dataset : Dataset3
deriving Repr, DecidableEq

/-- One `next` on a `_generate_evaluation_subsets` generator: the two
shape-mismatch assertions (first two axes of features vs outputs and
features vs metadata — head-based shapes, as for rectangular numpy
arrays), then one choices draw and the aligned gather of all three arrays.
numpy additionally raises `ValueError: a must be non-empty` when the
evaluation axis `i` is empty.  (In Python the assertions run once when the
generator body starts; since the captured shapes never change, checking
them at every draw is observationally the same.) -/
def evalNext (ds : Dataset3) (rng : RandomState) :
    Except String ((Arr2 × Arr2 × Arr2) × RandomState) :=
  let X := ds.1
  let y := ds.2.1
  let meta := ds.2.2
  let N := X.length
  let i := dim1 X
  if ¬(N = y.length ∧ i = dim1 y) then
    .error "Shape mismatch between input features array and output array."
  else if ¬(N = meta.length ∧ i = dim1 meta) then
    .error "Shape mismatch between input features array and metadata array."
  else if i = 0 then
    .error "a must be non-empty"
  else
    let c := drawChoices N i rng
    .ok ((takeAlong X c.1, takeAlong y c.1, takeAlong meta c.1), c.2)

/-- The mutable state of a `Data` object: the full arrays, `self.rng`,
the optional generators, and the materialized train/test attributes
(`none` = Python `None` or a not-yet-set attribute). -/
structure DataState where
  X_full : Arr3
  y_full : Arr3
  meta_full : Arr3
  rng : RandomState
  conf_splits : Option ConfGen
  eval_splits : Option EvalGen
  train_X : Option Arr2
  train_Y : Option Arr2
  train_meta : Option Arr2
  test_X : Option Arr3
  test_Y : Option Arr3
  test_meta : Option Arr3
deriving Repr, DecidableEq

namespace Data

/-- `Data.__init__` after `read_hpolib_benchmark_data` has produced the
three aligned arrays (file reading is out-of-scope I/O and
`emukit_map_func` is `None`).  The configuration-split generator is always
created with `train_size = train_set_multiplier * X_full.shape[2]` and a
fresh private `RandomState` seeded by `self.rng.randint(0, 10^9)`; the
three operating modes then follow `iterate_confs` / `iterate_evals`. -/
def init (X_full y_full meta_full : Arr3) (seed : Nat)
    (iterate_confs : Bool := true) (iterate_evals : Bool := false)
    (train_set_multiplier : Nat := 10) : Except String DataState :=
  let rng0 := mkRandomState seed
  let p := randint 0 1000000000 rng0
  let gen : ConfGen :=
    iterate_dataset_configurations none (some (train_set_multiplier * dim2 X_full)) p.1
  if iterate_confs then
    .ok { X_full := X_full, y_full := y_full, meta_full := meta_full,
          rng := p.2, conf_splits := some gen, eval_splits := none,
          train_X := none, train_Y := none, train_meta := none,
          test_X := none, test_Y := none, test_meta := none }
  else
    match confNext X_full y_full meta_full gen with
    | .error e => .error e
    | .ok ((train_set, test_set), _) =>
      if iterate_evals then
        .ok { X_full := X_full, y_full := y_full, meta_full := meta_full,
              rng := p.2, conf_splits := none, eval_splits := some ⟨train_set⟩,
              train_X := none, train_Y := none, train_meta := none,
              test_X := some test_set.1, test_Y := some test_set.2.1,
              test_meta := some test_set.2.2 }
      else
        match evalNext train_set p.2 with
        | .error e => .error e
        | .ok ((tX, tY, tm), rng2) =>
          .ok { X_full := X_full, y_full := y_full, meta_full := meta_full,
                rng := rng2, conf_splits := none, eval_splits := none,
                train_X := some tX, train_Y := some tY, train_meta := some tm,
                test_X := some test_set.1, test_Y := some test_set.2.1,
                test_meta := some test_set.2.2 }

/-- `Data.update`: refresh the materialized splits according to the active
operating mode (evaluation iteration, configuration iteration, or no-op). -/
def update (s : DataState) : Except String DataState :=
  match s.eval_splits with
  | some g =>
    match evalNext g.dataset s.rng with
    | .error e => .error e
    | .ok ((tX, tY, tm), rng2) =>
      .ok { s with train_X := some tX, train_Y := some tY, train_meta := some tm,
                   rng := rng2 }
  | none =>
    match s.conf_splits with
    | some g =>
      match confNext s.X_full s.y_full s.meta_full g with
      | .error e => .error e
      | .ok ((train_data, test_data), g2) =>
        match evalNext train_data s.rng with
        | .error e => .error e
        | .ok ((tX, tY, tm), rng2) =>
          .ok { s with conf_splits := some g2, rng := rng2,
                       train_X := some tX, train_Y := some tY, train_meta := some tm,
                       test_X := some test_data.1, test_Y := some test_data.2.1,
                       test_meta := some test_data.2.2 }
    | none => .ok s

end Data

/-- `k` successive `update` calls. -/
def applyUpdates (s : DataState) : Nat → Except String DataState
  | 0 => .ok s
  | k + 1 =>
    match Data.update s with
    | .error e => .error e
    | .ok s2 => applyUpdates s2 k

/-- One full run: construct with a seed, then perform `k` updates. -/
def runUpdates (X_full y_full meta_full : Arr3) (seed : Nat)
    (iterate_confs iterate_evals : Bool) (train_set_multiplier : Nat)
    (k : Nat) : Except String DataState :=
  match Data.init X_full y_full meta_full seed iterate_confs iterate_evals
      train_set_multiplier with
  | .error e => .error e
  | .ok s => applyUpdates s k

/-- [N, i, D] rectangular-shape predicate. -/
def Shape3 (a : Arr3) (n i d : Nat) : Prop :=
  a.length = n ∧ ∀ r ∈ a, r.length = i ∧ ∀ e ∈ r, e.length = d

/-- [N, D] rectangular-shape predicate. -/
def Shape2 (a : Arr2) (n d : Nat) : Prop :=
  a.length = n ∧ ∀ r ∈ a, r.length = d

/-! ### Properties of the without-replacement draw -/

theorem drawK_spec (k : Nat) : ∀ (pool : List Nat) (rng : RandomState),
    k ≤ pool.length → pool.Nodup →
    (drawK k pool rng).1.length = k ∧ (drawK k pool rng).1.Nodup ∧
    ∀ a ∈ (drawK k pool rng).1, a ∈ pool := by
  induction k with
  | zero => intro pool rng _ _; simp [drawK]
  | succ k ih =>
    intro pool rng hk hnd
    have hpos : 0 < pool.length := Nat.lt_of_lt_of_le (Nat.succ_pos k) hk
    simp only [drawK]
    set p := rngNext rng with hp
    have hidx : p.1 % pool.length < pool.length := Nat.mod_lt _ hpos
    set x := pool.getD (p.1 % pool.length) 0 with hx
    have hxmem : x ∈ pool := by
      rw [hx, List.getD_eq_getElem pool 0 hidx]
      exact List.getElem_mem hidx
    have herase : (pool.erase x).length = pool.length - 1 :=
      List.length_erase_of_mem hxmem
    have hk' : k ≤ (pool.erase x).length := by
      rw [herase]; omega
    have hnd' : (pool.erase x).Nodup := hnd.erase x
    obtain ⟨hlen, hnodup, hmem⟩ := ih (pool.erase x) p.2 hk' hnd'
    refine ⟨by simpa using hlen, ?_, ?_⟩
    · refine List.nodup_cons.mpr ⟨?_, hnodup⟩
      intro hxin
      exact (hnd.not_mem_erase) (hmem x hxin)
    · intro a ha
      rcases List.mem_cons.mp ha with h | h
      · exact h ▸ hxmem
      · exact List.mem_of_mem_erase (hmem a h)

theorem choiceNoReplace_ok (n size : Nat) (rng : RandomState) (h : size ≤ n) :
    ∃ l rng2, choiceNoReplace n size rng = .ok (l, rng2) ∧
      l.length = size ∧ l.Nodup ∧ ∀ a ∈ l, a < n := by
  have hnot : ¬ n < size := Nat.not_lt.mpr h
  obtain ⟨hlen, hnd, hmem⟩ :=
    drawK_spec size (List.range n) rng (by simpa using h) (List.nodup_range _)
  refine ⟨(drawK size (List.range n) rng).1, (drawK size (List.range n) rng).2, ?_, hlen, hnd, ?_⟩
  · simp [choiceNoReplace, hnot]
  · intro a ha
    exact List.mem_range.mp (hmem a ha)

theorem exclude_indices_mem (npoints : Nat) (indices : List Nat) (a : Nat) :
    a ∈ exclude_indices npoints indices ↔ a < npoints ∧ a ∉ indices := by
  simp [exclude_indices]

theorem exclude_indices_nodup (npoints : Nat) (indices : List Nat) :
    (exclude_indices npoints indices).Nodup :=
  List.Nodup.filter _ (List.nodup_range _)

theorem exclude_indices_length (npoints : Nat) (indices : List Nat)
    (hnd : indices.Nodup) (hsub : ∀ a ∈ indices, a < npoints) :
    (exclude_indices npoints indices).length = npoints - indices.length := by
  have hperm : List.Perm ((List.range npoints).filter (fun j => indices.contains j))
      indices := by
    apply (List.perm_ext_iff_of_nodup (List.Nodup.filter _ (List.nodup_range _)) hnd).mpr
    intro a
    simp only [List.mem_filter, List.mem_range, List.elem_eq_mem, decide_eq_true_eq]
    exact ⟨fun h => h.2, fun h => ⟨hsub a h, h⟩⟩
  have hsplit : (List.range npoints).length
      = ((List.range npoints).filter (fun j => indices.contains j)).length
        + ((List.range npoints).filter (fun j => !(indices.contains j))).length :=
    List.length_eq_length_filter_add _
  have hcount : ((List.range npoints).filter (fun j => indices.contains j)).length
      = indices.length := hperm.length_eq
  have htot : (List.range npoints).length = npoints := List.length_range npoints
  unfold exclude_indices
  omega

/-- C1: for 0 < Nt < N, one draw of the configuration-split generator
returns a train index set of size Nt and a test index set of size N-Nt,
disjoint, with union exactly [0, N), the test indices being the exact
set-complement of the drawn train indices. -/
theorem conf_split_partition (N Nt : Nat) (rng : RandomState)
    (h1 : 0 < Nt) (h2 : Nt < N) :
    ∃ train test rng2,
      confDrawIndices N Nt rng = .ok ((train, test), rng2) ∧
      train.length = Nt ∧ test.length = N - Nt ∧
      train.Nodup ∧ test.Nodup ∧
      (∀ a, ¬(a ∈ train ∧ a ∈ test)) ∧
      (∀ a, (a ∈ train ∨ a ∈ test) ↔ a < N) ∧
      (∀ a, a ∈ test ↔ (a < N ∧ a ∉ train)) := by
  obtain ⟨l, rng2, hok, hlen, hnd, hbound⟩ :=
    choiceNoReplace_ok N Nt rng (Nat.le_of_lt h2)
  refine ⟨l, exclude_indices N l, rng2, ?_, hlen, ?_, hnd,
      exclude_indices_nodup N l, ?_, ?_, fun a => exclude_indices_mem N l a⟩
  · simp [confDrawIndices, hok]
  · rw [exclude_indices_length N l hnd hbound, hlen]
  · rintro a ⟨ha1, ha2⟩
    exact ((exclude_indices_mem N l a).mp ha2).2 ha1
  · intro a
    constructor
    · rintro (h | h)
      · exact hbound a h
      · exact ((exclude_indices_mem N l a).mp h).1
    · intro ha
      by_cases hm : a ∈ l
      · exact Or.inl hm
      · exact Or.inr ((exclude_indices_mem N l a).mpr ⟨ha, hm⟩)

/-- Witness for `conf_split_partition` at N = 5, Nt = 2. -/
theorem conf_split_partition_witness :
    ∃ train test rng2,
      confDrawIndices 5 2 (mkRandomState 0) = .ok ((train, test), rng2) ∧
      train.length = 2 ∧ test.length = 5 - 2 ∧
      train.Nodup ∧ test.Nodup ∧
      (∀ a, ¬(a ∈ train ∧ a ∈ test)) ∧
      (∀ a, (a ∈ train ∨ a ∈ test) ↔ a < 5) ∧
      (∀ a, a ∈ test ↔ (a < 5 ∧ a ∉ train)) :=
  conf_split_partition 5 2 (mkRandomState 0) (by decide) (by decide)

/-- C4 counterexample: with N = 10 configurations, drawing a split with
train_size = 0 and with train_size = 10 both succeed — no bounds error is
raised at either end of the interval. -/
theorem conf_split_bounds_counterexample :
    (confDrawIndices 10 0 (mkRandomState 0)).isOk = true ∧
    (confDrawIndices 10 10 (mkRandomState 0)).isOk = true := by decide

/-- C4 amended: the configuration-split draw fails with the bounds error
exactly when the requested training size exceeds N; train_size = 0 and
train_size = N succeed, yielding an empty train (resp. empty test) index
set. -/
theorem conf_split_bounds_amended (N Nt : Nat) (rng : RandomState) :
    (Nt ≤ N → ∃ train test rng2,
        confDrawIndices N Nt rng = .ok ((train, test), rng2) ∧
        train.length = Nt ∧ test.length = N - Nt) ∧
    (N < Nt →
      confDrawIndices N Nt rng
        = .error "Cannot take a larger sample than population when 'replace=False'") := by
  constructor
  · intro h
    obtain ⟨l, rng2, hok, hlen, hnd, hbound⟩ := choiceNoReplace_ok N Nt rng h
    exact ⟨l, exclude_indices N l, rng2, by simp [confDrawIndices, hok], hlen,
      by rw [exclude_indices_length N l hnd hbound, hlen]⟩
  · intro h
    have herr : choiceNoReplace N Nt rng
        = .error "Cannot take a larger sample than population when 'replace=False'" := by
      unfold choiceNoReplace
      rw [if_pos h]
    simp [confDrawIndices, herr]

/-- Witness for `conf_split_bounds_amended` at N = 10 with Nt = 10 and
Nt = 11. -/
theorem conf_split_bounds_amended_witness :
    (∃ train test rng2,
        confDrawIndices 10 10 (mkRandomState 0) = .ok ((train, test), rng2) ∧
        train.length = 10 ∧ test.length = 10 - 10) ∧
    confDrawIndices 10 11 (mkRandomState 0)
      = .error "Cannot take a larger sample than population when 'replace=False'" :=
  ⟨(conf_split_bounds_amended 10 10 (mkRandomState 0)).1 (by decide),
   (conf_split_bounds_amended 10 11 (mkRandomState 0)).2 (by decide)⟩

/-! ### Properties of the evaluation-subset draw -/

theorem drawChoices_cons (m i : Nat) (rng : RandomState) :
    drawChoices (m + 1) i rng
      = ((rngNext rng).1 % i :: (drawChoices m i (rngNext rng).2).1,
         (drawChoices m i (rngNext rng).2).2) := rfl

theorem drawChoices_spec (i : Nat) (hi : 0 < i) :
    ∀ (m : Nat) (rng : RandomState),
      (drawChoices m i rng).1.length = m ∧ ∀ c ∈ (drawChoices m i rng).1, c < i := by
  intro m
  induction m with
  | zero => intro rng; simp [drawChoices]
  | succ m ih =>
    intro rng
    rw [drawChoices_cons]
    obtain ⟨hl, hb⟩ := ih (rngNext rng).2
    refine ⟨by simpa using hl, ?_⟩
    intro c hc
    rcases List.mem_cons.mp hc with h | h
    · exact h ▸ Nat.mod_lt _ hi
    · exact hb c h

theorem takeAlong_getD (a : Arr3) (choices : List Nat) (m : Nat)
    (hm : m < a.length) (hm2 : m < choices.length) :
    (takeAlong a choices).getD m []
      = (a.getD m []).getD (choices.getD m 0) [] := by
  have hmlt : m < (takeAlong a choices).length := by
    unfold takeAlong
    rw [List.length_zipWith]
    omega
  rw [List.getD_eq_getElem _ _ hmlt, List.getD_eq_getElem _ _ hm,
    List.getD_eq_getElem _ _ hm2]
  exact List.getElem_zipWith

theorem takeAlong_shape (a : Arr3) (c : List Nat) (M i D : Nat)
    (ha : Shape3 a M i D) (hc : c.length = M) (hb : ∀ x ∈ c, x < i) :
    Shape2 (takeAlong a c) M D := by
  obtain ⟨haL, haR⟩ := ha
  have hlen : (takeAlong a c).length = M := by
    unfold takeAlong
    rw [List.length_zipWith, haL, hc, Nat.min_self]
  refine ⟨hlen, ?_⟩
  intro r hr
  obtain ⟨j, hj, hjr⟩ := List.mem_iff_getElem.mp hr
  have hjM : j < M := hlen ▸ hj
  have hja : j < a.length := by rw [haL]; exact hjM
  have hjc : j < c.length := by rw [hc]; exact hjM
  have hr_eq : r = (takeAlong a c).getD j [] := by
    rw [List.getD_eq_getElem _ _ hj, hjr]
  rw [hr_eq, takeAlong_getD a c j hja hjc]
  have hrowmem : a.getD j [] ∈ a := by
    rw [List.getD_eq_getElem _ _ hja]
    exact List.getElem_mem hja
  obtain ⟨hrlen, hrin⟩ := haR _ hrowmem
  have hkmem : c.getD j 0 ∈ c := by
    rw [List.getD_eq_getElem _ _ hjc]
    exact List.getElem_mem hjc
  have hk : c.getD j 0 < (a.getD j []).length := by
    rw [hrlen]
    exact hb _ hkmem
  have hmem2 : (a.getD j []).getD (c.getD j 0) [] ∈ a.getD j [] := by
    rw [List.getD_eq_getElem _ _ hk]
    exact List.getElem_mem hk
  exact hrin _ hmem2

theorem dim1_of_shape (a : Arr3) (M i D : Nat) (ha : Shape3 a M i D)
    (hM : 0 < M) : dim1 a = i := by
  obtain ⟨haL, haR⟩ := ha
  have h0 : 0 < a.length := haL ▸ hM
  unfold dim1
  rw [List.getD_eq_getElem _ _ h0]
  exact (haR _ (List.getElem_mem h0)).1

theorem dim2_of_shape (a : Arr3) (M i D : Nat) (ha : Shape3 a M i D)
    (hM : 0 < M) (hi : 0 < i) : dim2 a = D := by
  obtain ⟨haL, haR⟩ := ha
  have h0 : 0 < a.length := haL ▸ hM
  have hrow := haR _ (List.getElem_mem h0)
  have h1 : 0 < (a[0]).length := hrow.1 ▸ hi
  unfold dim2
  rw [List.getD_eq_getElem _ _ h0, List.getD_eq_getElem _ _ h1]
  exact hrow.2 _ (List.getElem_mem h1)

theorem evalNext_ok_eq (X y meta : Arr3) (rng : RandomState)
    (h1 : X.length = y.length) (h2 : dim1 X = dim1 y)
    (h3 : X.length = meta.length) (h4 : dim1 X = dim1 meta)
    (h5 : dim1 X ≠ 0) :
    evalNext (X, y, meta) rng
      = .ok ((takeAlong X (drawChoices X.length (dim1 X) rng).1,
              takeAlong y (drawChoices X.length (dim1 X) rng).1,
              takeAlong meta (drawChoices X.length (dim1 X) rng).1),
             (drawChoices X.length (dim1 X) rng).2) := by
  simp only [evalNext]
  rw [if_neg (by simp [h1, h2]), if_neg (by simp [h3, h4]), if_neg h5]

/-- Full specification of one draw of `_generate_evaluation_subsets` on
aligned nonempty slices: success, output shapes, and per-row membership
with one shared evaluation index across the three arrays. -/
theorem evalNext_spec (X y meta : Arr3) (M i Dx Dy Dz : Nat)
    (rng : RandomState)
    (hX : Shape3 X M i Dx) (hY : Shape3 y M i Dy) (hZ : Shape3 meta M i Dz)
    (hM : 0 < M) (hi : 0 < i) :
    ∃ oX oY oZ rng2,
      evalNext (X, y, meta) rng = .ok ((oX, oY, oZ), rng2) ∧
      Shape2 oX M Dx ∧ Shape2 oY M Dy ∧ Shape2 oZ M Dz ∧
      ∀ m, m < M → ∃ k, k < i ∧
        oX.getD m [] = (X.getD m []).getD k [] ∧
        oY.getD m [] = (y.getD m []).getD k [] ∧
        oZ.getD m [] = (meta.getD m []).getD k [] := by
  have hd1X : dim1 X = i := dim1_of_shape X M i Dx hX hM
  have hd1Y : dim1 y = i := dim1_of_shape y M i Dy hY hM
  have hd1Z : dim1 meta = i := dim1_of_shape meta M i Dz hZ hM
  have hXL := hX.1
  have hYL := hY.1
  have hZL := hZ.1
  have hne : dim1 X ≠ 0 := by rw [hd1X]; omega
  have heq := evalNext_ok_eq X y meta rng (by rw [hXL, hYL])
      (by rw [hd1X, hd1Y]) (by rw [hXL, hZL]) (by rw [hd1X, hd1Z]) hne
  rw [hd1X, hXL] at heq
  obtain ⟨hclen, hcb⟩ := drawChoices_spec i hi M rng
  refine ⟨_, _, _, _, heq, ?_, ?_, ?_, ?_⟩
  · exact takeAlong_shape X _ M i Dx hX hclen hcb
  · exact takeAlong_shape y _ M i Dy hY hclen hcb
  · exact takeAlong_shape meta _ M i Dz hZ hclen hcb
  · intro m hm
    have hmc : m < (drawChoices M i rng).1.length := by rw [hclen]; exact hm
    have hkmem : (drawChoices M i rng).1.getD m 0 ∈ (drawChoices M i rng).1 := by
      rw [List.getD_eq_getElem _ _ hmc]
      exact List.getElem_mem hmc
    refine ⟨(drawChoices M i rng).1.getD m 0, hcb _ hkmem, ?_, ?_, ?_⟩
    · exact takeAlong_getD X _ m (by rw [hXL]; exact hm) hmc
    · exact takeAlong_getD y _ m (by rw [hYL]; exact hm) hmc
    · exact takeAlong_getD meta _ m (by rw [hZL]; exact hm) hmc

/-- C3: one draw of the evaluation-subset generator on aligned [M,i,Dx],
[M,i,Dy], [M,i,Dz] slices yields arrays of shapes exactly [M,Dx], [M,Dy],
[M,Dz]; for every row m each yielded row is one of the i evaluation rows
originally present at index m of the corresponding input, with the same
evaluation index selected across all three arrays.  (An empty slice,
M = 0, has no rows; a numpy shape [0, i, D] with i > 0 is not
representable in the nested-list model, so nonemptiness is assumed.) -/
theorem eval_subset_spec (X y meta : Arr3) (M i Dx Dy Dz : Nat)
    (rng : RandomState)
    (hX : Shape3 X M i Dx) (hY : Shape3 y M i Dy) (hZ : Shape3 meta M i Dz)
    (hM : 0 < M) (hi : 0 < i) :
    ∃ oX oY oZ rng2,
      evalNext (X, y, meta) rng = .ok ((oX, oY, oZ), rng2) ∧
      Shape2 oX M Dx ∧ Shape2 oY M Dy ∧ Shape2 oZ M Dz ∧
      ∀ m, m < M → ∃ k, k < i ∧
        oX.getD m [] = (X.getD m []).getD k [] ∧
        oY.getD m [] = (y.getD m []).getD k [] ∧
        oZ.getD m [] = (meta.getD m []).getD k [] :=
  evalNext_spec X y meta M i Dx Dy Dz rng hX hY hZ hM hi

/-- Witness for `eval_subset_spec` on concrete [2,2,1] slices. -/
theorem eval_subset_spec_witness :
    ∃ oX oY oZ rng2,
      evalNext ([[[1], [2]], [[3], [4]]], [[[5], [6]], [[7], [8]]],
                [[[9], [10]], [[11], [12]]]) (mkRandomState 7)
        = .ok ((oX, oY, oZ), rng2) ∧
      Shape2 oX 2 1 ∧ Shape2 oY 2 1 ∧ Shape2 oZ 2 1 ∧
      ∀ m, m < 2 → ∃ k, k < 2 ∧
        oX.getD m [] = (([[[1], [2]], [[3], [4]]] : Arr3).getD m []).getD k [] ∧
        oY.getD m [] = (([[[5], [6]], [[7], [8]]] : Arr3).getD m []).getD k [] ∧
        oZ.getD m [] = (([[[9], [10]], [[11], [12]]] : Arr3).getD m []).getD k [] :=
  eval_subset_spec [[[1], [2]], [[3], [4]]] [[[5], [6]], [[7], [8]]]
    [[[9], [10]], [[11], [12]]] 2 2 1 1 1 (mkRandomState 7)
    (by unfold Shape3; decide) (by unfold Shape3; decide)
    (by unfold Shape3; decide) (by decide) (by decide)

theorem sliceRows_shape (a : Arr3) (idx : List Nat) (N i D : Nat)
    (ha : Shape3 a N i D) (hb : ∀ j ∈ idx, j < N) :
    Shape3 (sliceRows a idx) idx.length i D := by
  refine ⟨List.length_map _ _, ?_⟩
  intro r hr
  obtain ⟨j, hj, rfl⟩ := List.mem_map.mp hr
  have hjN : j < a.length := by rw [ha.1]; exact hb j hj
  have hmem : a.getD j [] ∈ a := by
    rw [List.getD_eq_getElem _ _ hjN]
    exact List.getElem_mem hjN
  exact ha.2 _ hmem

/-- Reduction of one `next` on the configuration-split generator when the
constructor-style arguments (`train_frac=None`, `train_size=Nt`) are in
effect and the draw is feasible. -/
theorem confNext_ok (X y meta : Arr3) (g : ConfGen) (Nt : Nat)
    (hf : g.train_frac = none) (hs : g.train_size = some Nt)
    (hle : Nt ≤ X.length) :
    ∃ train_ind test_ind rng2,
      confNext X y meta g
        = .ok (((sliceRows X train_ind, sliceRows y train_ind,
                 sliceRows meta train_ind),
                (sliceRows X test_ind, sliceRows y test_ind,
                 sliceRows meta test_ind)),
               { g with rng := rng2 }) ∧
      train_ind.length = Nt ∧ test_ind.length = X.length - Nt ∧
      (∀ j ∈ train_ind, j < X.length) ∧ (∀ j ∈ test_ind, j < X.length) := by
  obtain ⟨l, rng2, hok, hlen, hnd, hbound⟩ := choiceNoReplace_ok X.length Nt g.rng hle
  have hdraw : confDrawIndices X.length Nt g.rng
      = .ok ((l, exclude_indices X.length l), rng2) := by
    simp [confDrawIndices, hok]
  refine ⟨l, exclude_indices X.length l, rng2, ?_, hlen, ?_, hbound, ?_⟩
  · simp only [confNext, hf, hs]
    rw [if_neg (by simp)]
    simp only [Option.getD_some]
    rw [hdraw]
  · rw [exclude_indices_length _ _ hnd hbound, hlen]
  · intro j hj
    exact ((exclude_indices_mem _ _ _).mp hj).1

/-- The state invariant of full-iteration mode (`iterate_confs = True`):
the full arrays are unchanged, there is no evaluation-subset generator,
and a configuration-split generator with the constructor-supplied sizing
(`train_frac=None`, `train_size=Nt`) is live. -/
def ModeOneInv (X y meta : Arr3) (Nt : Nat) (s : DataState) : Prop :=
  s.X_full = X ∧ s.y_full = y ∧ s.meta_full = meta ∧
  s.eval_splits = none ∧
  ∃ r, s.conf_splits = some { train_frac := none, train_size := some Nt, rng := r }

/-- `Data.__init__` in full-iteration mode returns immediately: it only
creates the configuration-split generator, touching no array data. -/
theorem init_mode1_eq (X y meta : Arr3) (seed mult : Nat) (ie : Bool) :
    Data.init X y meta seed true ie mult
      = .ok { X_full := X, y_full := y, meta_full := meta,
              rng := (randint 0 1000000000 (mkRandomState seed)).2,
              conf_splits := some (iterate_dataset_configurations none
                (some (mult * dim2 X))
                (randint 0 1000000000 (mkRandomState seed)).1),
              eval_splits := none,
              train_X := none, train_Y := none, train_meta := none,
              test_X := none, test_Y := none, test_meta := none } := rfl

/-- One `update` in full-iteration mode: it succeeds, preserves the mode
invariant, collapses the training arrays to one evaluation per drawn
configuration, and installs the full-resolution complement as test set. -/
theorem update_mode1 (X y meta : Arr3) (N i Dx Dy Dz Nt : Nat) (s : DataState)
    (hX : Shape3 X N i Dx) (hY : Shape3 y N i Dy) (hZ : Shape3 meta N i Dz)
    (hinv : ModeOneInv X y meta Nt s)
    (hNt : 0 < Nt) (hle : Nt ≤ N) (hi : 0 < i) :
    ∃ s', Data.update s = .ok s' ∧ ModeOneInv X y meta Nt s' ∧
      (∃ tX, s'.train_X = some tX ∧ Shape2 tX Nt Dx) ∧
      (∃ tY, s'.train_Y = some tY ∧ Shape2 tY Nt Dy) ∧
      (∃ tm, s'.train_meta = some tm ∧ Shape2 tm Nt Dz) ∧
      (∃ eX, s'.test_X = some eX ∧ Shape3 eX (N - Nt) i Dx) ∧
      (∃ eY, s'.test_Y = some eY ∧ Shape3 eY (N - Nt) i Dy) ∧
      (∃ em, s'.test_meta = some em ∧ Shape3 em (N - Nt) i Dz) := by
  obtain ⟨hXf, hYf, hZf, hev, r, hcs⟩ := hinv
  have hleX : Nt ≤ X.length := by rw [hX.1]; exact hle
  obtain ⟨tri, tei, rng2, hcn, htl, hel, htb, heb⟩ :=
    confNext_ok X y meta { train_frac := none, train_size := some Nt, rng := r }
      Nt rfl rfl hleX
  have htbN : ∀ j ∈ tri, j < N := fun j hj => by rw [← hX.1]; exact htb j hj
  have hebN : ∀ j ∈ tei, j < N := fun j hj => by rw [← hX.1]; exact heb j hj
  have helN : tei.length = N - Nt := by rw [hel, hX.1]
  have hXtr : Shape3 (sliceRows X tri) Nt i Dx := by
    have h := sliceRows_shape X tri N i Dx hX htbN
    rwa [htl] at h
  have hYtr : Shape3 (sliceRows y tri) Nt i Dy := by
    have h := sliceRows_shape y tri N i Dy hY htbN
    rwa [htl] at h
  have hZtr : Shape3 (sliceRows meta tri) Nt i Dz := by
    have h := sliceRows_shape meta tri N i Dz hZ htbN
    rwa [htl] at h
  have hXte : Shape3 (sliceRows X tei) (N - Nt) i Dx := by
    have h := sliceRows_shape X tei N i Dx hX hebN
    rwa [helN] at h
  have hYte : Shape3 (sliceRows y tei) (N - Nt) i Dy := by
    have h := sliceRows_shape y tei N i Dy hY hebN
    rwa [helN] at h
  have hZte : Shape3 (sliceRows meta tei) (N - Nt) i Dz := by
    have h := sliceRows_shape meta tei N i Dz hZ hebN
    rwa [helN] at h
  obtain ⟨oX, oY, oZ, rng3, heval, hsX, hsY, hsZ, _⟩ :=
    evalNext_spec (sliceRows X tri) (sliceRows y tri) (sliceRows meta tri)
      Nt i Dx Dy Dz s.rng hXtr hYtr hZtr hNt hi
  have hupd : Data.update s
      = .ok { s with
              conf_splits := some { train_frac := none, train_size := some Nt,
                                    rng := rng2 },
              rng := rng3,
              train_X := some oX, train_Y := some oY, train_meta := some oZ,
              test_X := some (sliceRows X tei),
              test_Y := some (sliceRows y tei),
              test_meta := some (sliceRows meta tei) } := by
    simp only [Data.update, hev, hcs, hXf, hYf, hZf, hcn, heval]
  refine ⟨_, hupd, ⟨hXf, hYf, hZf, hev, rng2, rfl⟩, ⟨oX, rfl, hsX⟩,
    ⟨oY, rfl, hsY⟩, ⟨oZ, rfl, hsZ⟩, ⟨_, rfl, hXte⟩, ⟨_, rfl, hYte⟩,
    ⟨_, rfl, hZte⟩⟩

/-- C2: in full-iteration mode (iterate_confs = true) construction
establishes the mode invariant, and every `update` keeps it while leaving
the test arrays at full resolution [N-Nt, i, D] and collapsing the train
arrays to one evaluation per configuration [Nt, D] (Nt = multiplier*Dx),
for features, outputs and metadata alike. -/
theorem mode1_update_asymmetry (X y meta : Arr3) (N i Dx Dy Dz seed mult : Nat)
    (hX : Shape3 X N i Dx) (hY : Shape3 y N i Dy) (hZ : Shape3 meta N i Dz)
    (hi : 0 < i) (hNt : 0 < mult * Dx) (hle : mult * Dx ≤ N) :
    (∀ s0, Data.init X y meta seed true false mult = .ok s0 →
        ModeOneInv X y meta (mult * Dx) s0) ∧
    (∀ s s', ModeOneInv X y meta (mult * Dx) s → Data.update s = .ok s' →
        ModeOneInv X y meta (mult * Dx) s' ∧
        (∃ tX, s'.train_X = some tX ∧ Shape2 tX (mult * Dx) Dx) ∧
        (∃ tY, s'.train_Y = some tY ∧ Shape2 tY (mult * Dx) Dy) ∧
        (∃ tm, s'.train_meta = some tm ∧ Shape2 tm (mult * Dx) Dz) ∧
        (∃ eX, s'.test_X = some eX ∧ Shape3 eX (N - mult * Dx) i Dx) ∧
        (∃ eY, s'.test_Y = some eY ∧ Shape3 eY (N - mult * Dx) i Dy) ∧
        (∃ em, s'.test_meta = some em ∧ Shape3 em (N - mult * Dx) i Dz)) := by
  have hN : 0 < N := Nat.lt_of_lt_of_le hNt hle
  have hdim : dim2 X = Dx := dim2_of_shape X N i Dx hX hN hi
  constructor
  · intro s0 h0
    rw [init_mode1_eq] at h0
    have hs0 := Except.ok.inj h0
    rw [← hs0]
    refine ⟨rfl, rfl, rfl, rfl,
      mkRandomState (randint 0 1000000000 (mkRandomState seed)).1, ?_⟩
    simp [iterate_dataset_configurations, hdim]
  · intro s s' hinv hupd
    obtain ⟨s'', hupd2, hrest⟩ :=
      update_mode1 X y meta N i Dx Dy Dz (mult * Dx) s hX hY hZ hinv hNt hle hi
    rw [hupd] at hupd2
    rw [Except.ok.inj hupd2]
    exact hrest

/-- Witness for `mode1_update_asymmetry` on a concrete [2,1,1] dataset
with multiplier 1. -/
theorem mode1_update_asymmetry_witness :
    (∀ s0, Data.init [[[0]], [[1]]] [[[2]], [[3]]] [[[4]], [[5]]] 0 true false 1
          = .ok s0 → ModeOneInv [[[0]], [[1]]] [[[2]], [[3]]] [[[4]], [[5]]] 1 s0) ∧
    (∀ s s', ModeOneInv [[[0]], [[1]]] [[[2]], [[3]]] [[[4]], [[5]]] 1 s →
        Data.update s = .ok s' →
        ModeOneInv [[[0]], [[1]]] [[[2]], [[3]]] [[[4]], [[5]]] 1 s' ∧
        (∃ tX, s'.train_X = some tX ∧ Shape2 tX 1 1) ∧
        (∃ tY, s'.train_Y = some tY ∧ Shape2 tY 1 1) ∧
        (∃ tm, s'.train_meta = some tm ∧ Shape2 tm 1 1) ∧
        (∃ eX, s'.test_X = some eX ∧ Shape3 eX (2 - 1) 1 1) ∧
        (∃ eY, s'.test_Y = some eY ∧ Shape3 eY (2 - 1) 1 1) ∧
        (∃ em, s'.test_meta = some em ∧ Shape3 em (2 - 1) 1 1)) := by
  have h := mode1_update_asymmetry [[[0]], [[1]]] [[[2]], [[3]]] [[[4]], [[5]]]
    2 1 1 1 1 0 1 (by unfold Shape3; decide) (by unfold Shape3; decide)
    (by unfold Shape3; decide) (by decide) (by decide) (by decide)
  simpa using h

/-- C5 counterexample: constructing in full-iteration mode with features
of shape (10,3,2) and outputs of shape (9,3,1) (metadata also (9,3,1))
raises no error at all — a Partitioner state is produced.  `__init__`
contains no shape validation; the assertions live inside
`_generate_evaluation_subsets` and run only at its first draw. -/
theorem init_shape_mismatch_counterexample :
    (Data.init (List.replicate 10 (List.replicate 3 (List.replicate 2 (0 : Int))))
      (List.replicate 9 (List.replicate 3 (List.replicate 1 (0 : Int))))
      (List.replicate 9 (List.replicate 3 (List.replicate 1 (0 : Int))))
      0 true false 10).isOk = true := by decide

/-- C5 amended: construction never validates shapes in full-iteration
mode: `__init__` with iterate_confs = true succeeds for every triple of
input arrays, of mismatching shapes or not; the shape-mismatch assertion
(which does carry both offending shapes) belongs to the
evaluation-subset generator and fires only at its first draw — during
construction only in the fully-static mode, otherwise at an update. -/
theorem init_mode1_no_shape_check (X y meta : Arr3) (seed mult : Nat)
    (ie : Bool) :
    (Data.init X y meta seed true ie mult).isOk = true := by
  rw [init_mode1_eq]
  rfl

/-- C6: determinism — a run is a pure function of the seed, the dataset
and the update count, so any two runs of the same construction arguments
and the same number of `update` calls agree on all six train/test
arrays (at every prefix j of the call sequence). -/
theorem run_determinism (X y meta : Arr3) (seed mult j : Nat)
    (ic ie : Bool) (s1 s2 : DataState)
    (h1 : runUpdates X y meta seed ic ie mult j = .ok s1)
    (h2 : runUpdates X y meta seed ic ie mult j = .ok s2) :
    s1.train_X = s2.train_X ∧ s1.train_Y = s2.train_Y ∧
    s1.train_meta = s2.train_meta ∧ s1.test_X = s2.test_X ∧
    s1.test_Y = s2.test_Y ∧ s1.test_meta = s2.test_meta := by
  rw [h1] at h2
  rw [Except.ok.inj h2]
  exact ⟨rfl, rfl, rfl, rfl, rfl, rfl⟩

/-- Witness for `run_determinism`: a concrete full-iteration run with one
`update` call. -/
theorem run_determinism_witness :
    ∃ s, runUpdates [[[0]], [[1]]] [[[2]], [[3]]] [[[4]], [[5]]] 0 true false 1 1
        = .ok s ∧
      (s.train_X = s.train_X ∧ s.train_Y = s.train_Y ∧
       s.train_meta = s.train_meta ∧ s.test_X = s.test_X ∧
       s.test_Y = s.test_Y ∧ s.test_meta = s.test_meta) := by
  cases hrun : runUpdates [[[0]], [[1]]] [[[2]], [[3]]] [[[4]], [[5]]] 0 true false 1 1 with
  | error e =>
    have hok : (runUpdates [[[0]], [[1]]] [[[2]], [[3]]] [[[4]], [[5]]]
        0 true false 1 1).isOk = true := by decide
    rw [hrun] at hok
    exact Bool.noConfusion hok
  | ok s =>
    exact ⟨s, rfl,
      run_determinism [[[0]], [[1]]] [[[2]], [[3]]] [[[4]], [[5]]] 0 1 1
        true false s s hrun hrun⟩

/-- Frame property of one `update` when no configuration-split generator
is live (`iterate_confs = False` states): the test arrays and both
generator slots are untouched, and if there is no evaluation-subset
generator either, `update` is a no-op. -/
theorem update_frame_static (s s' : DataState) (hc : s.conf_splits = none)
    (hu : Data.update s = .ok s') :
    s'.test_X = s.test_X ∧ s'.test_Y = s.test_Y ∧ s'.test_meta = s.test_meta ∧
    s'.conf_splits = none ∧ s'.eval_splits = s.eval_splits ∧
    (s.eval_splits = none → s' = s) := by
  cases hev : s.eval_splits with
  | some g =>
    simp only [Data.update, hev] at hu
    cases heval : evalNext g.dataset s.rng with
    | error e =>
      rw [heval] at hu
      exact Except.noConfusion hu
    | ok v =>
      obtain ⟨⟨tX, tY, tm⟩, rng2⟩ := v
      rw [heval] at hu
      rw [← Except.ok.inj hu]
      exact ⟨rfl, rfl, rfl, hc, rfl, fun hn => Option.noConfusion hn⟩
  | none =>
    simp only [Data.update, hev, hc] at hu
    rw [← Except.ok.inj hu]
    exact ⟨rfl, rfl, rfl, hc, hev, fun _ => rfl⟩

/-- Iterated version of `update_frame_static`: any number of updates from
a state without a configuration-split generator leaves the test arrays
and generator slots unchanged, and is the identity when there is no
evaluation-subset generator either. -/
theorem applyUpdates_static (k : Nat) : ∀ (s0 s : DataState),
    s0.conf_splits = none → applyUpdates s0 k = .ok s →
    s.test_X = s0.test_X ∧ s.test_Y = s0.test_Y ∧ s.test_meta = s0.test_meta ∧
    s.conf_splits = none ∧ s.eval_splits = s0.eval_splits ∧
    (s0.eval_splits = none → s = s0) := by
  induction k with
  | zero =>
    intro s0 s hc h
    simp only [applyUpdates] at h
    rw [← Except.ok.inj h]
    exact ⟨rfl, rfl, rfl, hc, rfl, fun _ => rfl⟩
  | succ k ih =>
    intro s0 s hc h
    simp only [applyUpdates] at h
    cases hu : Data.update s0 with
    | error e =>
      rw [hu] at h
      exact Except.noConfusion h
    | ok s1 =>
      rw [hu] at h
      obtain ⟨ht1, ht2, ht3, hc1, he1, hid1⟩ := update_frame_static s0 s1 hc hu
      obtain ⟨kt1, kt2, kt3, kc1, ke1, kid1⟩ := ih s1 s hc1 h
      refine ⟨kt1.trans ht1, kt2.trans ht2, kt3.trans ht3, kc1,
        ke1.trans he1, ?_⟩
      intro hn
      have hs1 : s1 = s0 := hid1 hn
      rw [hs1] at kid1
      exact kid1 hn

/-- C7: with iterate_confs = false, no sequence of `update` calls ever
changes the test arrays (the configuration split is frozen from
construction), and with iterate_evals = false as well, the whole state is
left identical — `update` is a no-op, so any two consecutive calls agree. -/
theorem static_test_frame (X y meta : Arr3) (seed : Nat) (ie : Bool)
    (mult k : Nat) (s0 s : DataState)
    (h0 : Data.init X y meta seed false ie mult = .ok s0)
    (hk : applyUpdates s0 k = .ok s) :
    s.test_X = s0.test_X ∧ s.test_Y = s0.test_Y ∧
    s.test_meta = s0.test_meta ∧ (ie = false → s = s0) := by
  have hc0 : s0.conf_splits = none ∧ (ie = false → s0.eval_splits = none) := by
    simp only [Data.init, Bool.false_eq_true, if_false] at h0
    cases hcn : confNext X y meta (iterate_dataset_configurations none
        (some (mult * dim2 X)) (randint 0 1000000000 (mkRandomState seed)).1) with
    | error e =>
      rw [hcn] at h0
      exact Except.noConfusion h0
    | ok v =>
      obtain ⟨⟨train_set, test_set⟩, g'⟩ := v
      rw [hcn] at h0
      cases ie with
      | true =>
        simp only [if_true] at h0
        rw [← Except.ok.inj h0]
        exact ⟨rfl, fun hcontra => Bool.noConfusion hcontra⟩
      | false =>
        simp only [Bool.false_eq_true, if_false] at h0
        cases heval : evalNext train_set
            (randint 0 1000000000 (mkRandomState seed)).2 with
        | error e =>
          rw [heval] at h0
          exact Except.noConfusion h0
        | ok w =>
          obtain ⟨⟨tX, tY, tm⟩, rng2⟩ := w
          rw [heval] at h0
          rw [← Except.ok.inj h0]
          exact ⟨rfl, fun _ => rfl⟩
  obtain ⟨ht1, ht2, ht3, _, _, hid⟩ :=
    applyUpdates_static k s0 s hc0.1 hk
  refine ⟨ht1, ht2, ht3, ?_⟩
  intro hie
  exact hid (hc0.2 hie)

/-- Witness for `static_test_frame`: a concrete fully-static run with two
`update` calls. -/
theorem static_test_frame_witness :
    ∃ s0 s, Data.init [[[0]], [[1]]] [[[2]], [[3]]] [[[4]], [[5]]] 0 false false 1
        = .ok s0 ∧
      applyUpdates s0 2 = .ok s ∧
      (s.test_X = s0.test_X ∧ s.test_Y = s0.test_Y ∧
       s.test_meta = s0.test_meta ∧ (false = false → s = s0)) := by
  cases h0 : Data.init [[[0]], [[1]]] [[[2]], [[3]]] [[[4]], [[5]]] 0 false false 1 with
  | error e =>
    have hok : (Data.init [[[0]], [[1]]] [[[2]], [[3]]] [[[4]], [[5]]]
        0 false false 1).isOk = true := by decide
    rw [h0] at hok
    exact Bool.noConfusion hok
  | ok s0 =>
    cases hk : applyUpdates s0 2 with
    | error e =>
      have hrun : runUpdates [[[0]], [[1]]] [[[2]], [[3]]] [[[4]], [[5]]]
          0 false false 1 2 = .error e := by
        simp only [runUpdates, h0]
        exact hk
      have hok : (runUpdates [[[0]], [[1]]] [[[2]], [[3]]] [[[4]], [[5]]]
          0 false false 1 2).isOk = true := by decide
      rw [hrun] at hok
      exact Bool.noConfusion hok
    | ok s =>
      exact ⟨s0, s, rfl, hk,
        static_test_frame [[[0]], [[1]]] [[[2]], [[3]]] [[[4]], [[5]]]
          0 false 1 2 s0 s h0 hk⟩

/-- C8 counterexample: calling `_iterate_dataset_configurations` with
neither sizing parameter creates the generator without any error (Python
generator semantics: the body has not started); the RuntimeError surfaces
only at the first draw, not at creation or Partitioner construction. -/
theorem conf_missing_param_counterexample :
    iterate_dataset_configurations none none 0
      = { train_frac := none, train_size := none, rng := mkRandomState 0 } ∧
    confNext [[[0]]] [[[0]]] [[[0]]] (iterate_dataset_configurations none none 0)
      = .error "Either 'train_frac' or 'train_size' must be provided." :=
  ⟨rfl, rfl⟩

/-- C8 amended: the missing-parameter configuration error exists and is
fatal, but it is raised at the FIRST DRAW of the configuration-split
generator, not at generator creation; and it is unreachable through
`Data.__init__`, which always supplies
`train_size = train_set_multiplier * Dx` to the generator it creates. -/
theorem conf_missing_param_amended (X y meta : Arr3) (g : ConfGen)
    (hf : g.train_frac = none) (hs : g.train_size = none) :
    confNext X y meta g
      = .error "Either 'train_frac' or 'train_size' must be provided." ∧
    ∀ (seed mult : Nat) (ic ie : Bool) (s : DataState),
      Data.init X y meta seed ic ie mult = .ok s →
      ∀ g', s.conf_splits = some g' →
        g'.train_frac = none ∧ g'.train_size = some (mult * dim2 X) := by
  constructor
  · simp only [confNext]
    rw [if_pos ⟨hf, hs⟩]
  · intro seed mult ic ie s hinit g' hg'
    cases ic with
    | true =>
      rw [init_mode1_eq] at hinit
      rw [← Except.ok.inj hinit] at hg'
      simp only [iterate_dataset_configurations, Option.some.injEq] at hg'
      rw [← hg']
      exact ⟨rfl, rfl⟩
    | false =>
      simp only [Data.init, Bool.false_eq_true, if_false] at hinit
      cases hcn : confNext X y meta (iterate_dataset_configurations none
          (some (mult * dim2 X)) (randint 0 1000000000 (mkRandomState seed)).1) with
      | error e =>
        rw [hcn] at hinit
        exact Except.noConfusion hinit
      | ok v =>
        obtain ⟨⟨train_set, test_set⟩, gx⟩ := v
        rw [hcn] at hinit
        cases ie with
        | true =>
          simp only [if_true] at hinit
          rw [← Except.ok.inj hinit] at hg'
          exact Option.noConfusion hg'
        | false =>
          simp only [Bool.false_eq_true, if_false] at hinit
          cases heval : evalNext train_set
              (randint 0 1000000000 (mkRandomState seed)).2 with
          | error e =>
            rw [heval] at hinit
            exact Except.noConfusion hinit
          | ok w =>
            obtain ⟨⟨tX, tY, tm⟩, rng2⟩ := w
            rw [heval] at hinit
            rw [← Except.ok.inj hinit] at hg'
            exact Option.noConfusion hg'

/-- Witness for `conf_missing_param_amended` at a concrete generator with
both parameters absent. -/
theorem conf_missing_param_amended_witness :
    confNext [[[1]]] [[[2]]] [[[3]]]
        { train_frac := none, train_size := none, rng := mkRandomState 5 }
      = .error "Either 'train_frac' or 'train_size' must be provided." ∧
    ∀ (seed mult : Nat) (ic ie : Bool) (s : DataState),
      Data.init [[[1]]] [[[2]]] [[[3]]] seed ic ie mult = .ok s →
      ∀ g', s.conf_splits = some g' →
        g'.train_frac = none ∧
        g'.train_size = some (mult * dim2 [[[1]]]) :=
  conf_missing_param_amended [[[1]]] [[[2]]] [[[3]]]
    { train_frac := none, train_size := none, rng := mkRandomState 5 } rfl rfl

/-- When the requested training size exceeds the number of configurations,
the draw inside the configuration-split generator fails with numpy's
too-large-sample error. -/
theorem confNext_error_of_large (X y meta : Arr3) (g : ConfGen) (Nt : Nat)
    (hf : g.train_frac = none) (hs : g.train_size = some Nt)
    (h : X.length < Nt) :
    confNext X y meta g
      = .error "Cannot take a larger sample than population when 'replace=False'" := by
  simp only [confNext, hf, hs]
  rw [if_neg (by simp)]
  simp only [Option.getD_some]
  have herr : confDrawIndices X.length Nt g.rng
      = .error "Cannot take a larger sample than population when 'replace=False'" := by
    simp [confDrawIndices, choiceNoReplace, h]
  rw [herr]

/-- C9: the configuration-split generator created by the constructor
always carries train_size = train_set_multiplier * Dx (train_frac unset) —
the training size is never derived from a caller-supplied count or
fraction of N — and whenever multiplier * Dx exceeds N the draw fails: at
construction in the static modes, at the (first) update in full-iteration
mode. -/
theorem train_size_multiplier_property (X y meta : Arr3)
    (N i Dx seed mult : Nat) (hX : Shape3 X N i Dx) (hN : 0 < N)
    (hi : 0 < i) :
    (∀ ie s0, Data.init X y meta seed true ie mult = .ok s0 →
        ∃ r, s0.conf_splits
          = some { train_frac := none, train_size := some (mult * Dx),
                   rng := r }) ∧
    (N < mult * Dx →
      (∀ ie, (Data.init X y meta seed false ie mult).isOk = false) ∧
      (∀ ie s0, Data.init X y meta seed true ie mult = .ok s0 →
          (Data.update s0).isOk = false)) := by
  have hdim : dim2 X = Dx := dim2_of_shape X N i Dx hX hN hi
  have hXlen : X.length = N := hX.1
  constructor
  · intro ie s0 h0
    rw [init_mode1_eq] at h0
    rw [← Except.ok.inj h0]
    refine ⟨mkRandomState (randint 0 1000000000 (mkRandomState seed)).1, ?_⟩
    simp [iterate_dataset_configurations, hdim]
  · intro hbig
    have hlarge : X.length < mult * dim2 X := by
      rw [hXlen, hdim]
      exact hbig
    have herr := fun r => confNext_error_of_large X y meta
      { train_frac := none, train_size := some (mult * dim2 X), rng := r }
      (mult * dim2 X) rfl rfl hlarge
    constructor
    · intro ie
      simp only [Data.init, Bool.false_eq_true, if_false,
        iterate_dataset_configurations]
      rw [herr _]
      rfl
    · intro ie s0 h0
      rw [init_mode1_eq] at h0
      rw [← Except.ok.inj h0]
      simp only [Data.update, iterate_dataset_configurations]
      rw [herr _]
      rfl

/-- Witness for `train_size_multiplier_property` on a [2,1,1] dataset with
multiplier 3 (3 * 1 = 3 > 2 = N). -/
theorem train_size_multiplier_property_witness :
    (∀ ie s0, Data.init [[[0]], [[1]]] [[[2]], [[3]]] [[[4]], [[5]]] 0 true ie 3
        = .ok s0 →
        ∃ r, s0.conf_splits
          = some { train_frac := none, train_size := some (3 * 1), rng := r }) ∧
    (2 < 3 * 1 →
      (∀ ie, (Data.init [[[0]], [[1]]] [[[2]], [[3]]] [[[4]], [[5]]]
          0 false ie 3).isOk = false) ∧
      (∀ ie s0, Data.init [[[0]], [[1]]] [[[2]], [[3]]] [[[4]], [[5]]]
          0 true ie 3 = .ok s0 → (Data.update s0).isOk = false)) :=
  train_size_multiplier_property [[[0]], [[1]]] [[[2]], [[3]]] [[[4]], [[5]]]
    2 1 1 0 3 (by unfold Shape3; decide) (by decide) (by decide)

/-- C10: after construction with iterate_confs = false and
iterate_evals = true (mode 2) the training attributes are unset (`None`)
while the test attributes are already populated; the first `update`
replaces the training attributes with the first evaluation resample and
leaves the test attributes untouched. -/
theorem mode2_train_unset_until_update (X y meta : Arr3) (seed mult : Nat)
    (s : DataState)
    (h : Data.init X y meta seed false true mult = .ok s) :
    s.train_X = none ∧ s.train_Y = none ∧ s.train_meta = none ∧
    s.test_X.isSome = true ∧ s.test_Y.isSome = true ∧
    s.test_meta.isSome = true ∧
    ∀ s', Data.update s = .ok s' →
      (∃ g rng2 tX tY tm, s.eval_splits = some g ∧
        evalNext g.dataset s.rng = .ok ((tX, tY, tm), rng2) ∧
        s'.train_X = some tX ∧ s'.train_Y = some tY ∧
        s'.train_meta = some tm) ∧
      s'.test_X = s.test_X ∧ s'.test_Y = s.test_Y ∧
      s'.test_meta = s.test_meta := by
  simp only [Data.init, Bool.false_eq_true, if_false] at h
  cases hcn : confNext X y meta (iterate_dataset_configurations none
      (some (mult * dim2 X)) (randint 0 1000000000 (mkRandomState seed)).1) with
  | error e =>
    rw [hcn] at h
    exact Except.noConfusion h
  | ok v =>
    obtain ⟨⟨train_set, test_set⟩, gx⟩ := v
    rw [hcn] at h
    simp only [if_true] at h
    rw [← Except.ok.inj h]
    refine ⟨rfl, rfl, rfl, rfl, rfl, rfl, ?_⟩
    intro s' hu
    simp only [Data.update] at hu
    cases heval : evalNext train_set
        (randint 0 1000000000 (mkRandomState seed)).2 with
    | error e =>
      rw [heval] at hu
      exact Except.noConfusion hu
    | ok w =>
      obtain ⟨⟨tX, tY, tm⟩, rng2⟩ := w
      rw [heval] at hu
      rw [← Except.ok.inj hu]
      exact ⟨⟨⟨train_set⟩, rng2, tX, tY, tm, rfl, heval, rfl, rfl, rfl⟩,
        rfl, rfl, rfl⟩

/-- Witness for `mode2_train_unset_until_update` on a concrete [2,1,1]
dataset. -/
theorem mode2_train_unset_until_update_witness :
    ∃ s, Data.init [[[0]], [[1]]] [[[2]], [[3]]] [[[4]], [[5]]] 0 false true 1
        = .ok s ∧
      (s.train_X = none ∧ s.train_Y = none ∧ s.train_meta = none ∧
       s.test_X.isSome = true ∧ s.test_Y.isSome = true ∧
       s.test_meta.isSome = true ∧
       ∀ s', Data.update s = .ok s' →
        (∃ g rng2 tX tY tm, s.eval_splits = some g ∧
          evalNext g.dataset s.rng = .ok ((tX, tY, tm), rng2) ∧
          s'.train_X = some tX ∧ s'.train_Y = some tY ∧
          s'.train_meta = some tm) ∧
        s'.test_X = s.test_X ∧ s'.test_Y = s.test_Y ∧
        s'.test_meta = s.test_meta) := by
  cases h : Data.init [[[0]], [[1]]] [[[2]], [[3]]] [[[4]], [[5]]] 0 false true 1 with
  | error e =>
    have hok : (Data.init [[[0]], [[1]]] [[[2]], [[3]]] [[[4]], [[5]]]
        0 false true 1).isOk = true := by decide
    rw [h] at hok
    exact Bool.noConfusion hok
  | ok s =>
    exact ⟨s, rfl,
      mode2_train_unset_until_update [[[0]], [[1]]] [[[2]], [[3]]] [[[4]], [[5]]]
        0 1 s h⟩
